import Mathlib

/-!
Verification of the pulse-scheduling core of this repository
(`qiskit/pulse/schedule.py`, `qiskit/pulse/ops.py`,
`qiskit/pulse/alignment.py`, `qiskit/pulse/builder.py`) against its
natural-language specification.

The Python sources are shallowly embedded below.  Machine integers are
`Int` (the Python code uses unbounded `int` times), fallible calls
return `Except`, and the tree of `ScheduleComponent`s becomes an
inductive type.  The occupancy layer (`qiskit/pulse/timeslots.py`,
class `TimeslotCollection`) is not among the provided source files, so
it is modelled from the specification; every such definition carries a
doc comment starting with `Modelled from the spec:`.

A load-bearing fact of this code base: the files come from different
eras of the project and their call conventions do not match.
`ops.union` (ops.py:33) and `ops.shift` (ops.py:48) call
`Schedule(*schedules, shift_time=..., name=...)`, but
`Schedule.__init__` (schedule.py:28) declares the keyword-only
parameter `shift` and no `**kwargs`, so every such call raises
`TypeError` at argument binding, before the constructor body runs.
Likewise `alignment.py` and `builder.py` call
`insert(..., mutate=True)` / `append(..., mutate=True)` and read
`Schedule.filter` / `Schedule.instructions`, none of which the
`Schedule` class in `schedule.py` provides.  The embedding models these
dynamic failures exactly (`PErr.typeError`, `PErr.attributeError`): the
wrappers fail, while the constructor itself, invoked with its declared
keyword, is embedded in full and carries the collision check.
-/

/-- Resource channel.  From `channels/pulse_channel.py`: two channels are
equal iff they have the same type (subclass) and the same index
(`PulseChannel.__eq__` / `__hash__`).  The concrete subclass catalog
(drive, measure, acquire, control, ...) is external to the core, so the
subclass is encoded as a `kind` number. -/
structure Pulse.Channel where
  kind : Nat
  index : Nat
deriving DecidableEq, Repr, Inhabited

/-- Modelled from the spec: `Interval` is the half-open range
`[start, stop)` in integer time units (spec section 3); the class itself
lives in the missing `timeslots.py`. -/
structure Pulse.Interval where
  start : Int
  stop : Int
deriving DecidableEq, Repr

/-- Modelled from the spec: a `Timeslot` is an `(Interval, Channel)`
pair — "this channel is occupied during this interval" (spec section 3);
the class itself lives in the missing `timeslots.py`. -/
structure Pulse.Timeslot where
  interval : Pulse.Interval
  channel : Pulse.Channel
deriving DecidableEq, Repr

/-- Modelled from the spec: shifting a timeslot adds a constant to the
start and stop of its interval (spec section 4.1, `shift(o, Δt)`). -/
def Pulse.Timeslot.shift (dt : Int) (t : Pulse.Timeslot) : Pulse.Timeslot :=
  ⟨⟨t.interval.start + dt, t.interval.stop + dt⟩, t.channel⟩

/-- Two timeslots conflict when they are on the same channel and their
half-open intervals overlap (`max start < min stop`). -/
def Pulse.conflictB (a b : Pulse.Timeslot) : Bool :=
  decide (a.channel = b.channel) &&
    decide (a.interval.start < b.interval.stop) &&
    decide (b.interval.start < a.interval.stop)

/-- Modelled from the spec: the collision check run by the
`TimeslotCollection` constructor — it fails when any two timeslots of
the collection conflict on a common channel (spec section 4.1,
merge-with-collision-check; section 3, occupancy invariant). -/
def Pulse.hasCollision : List Pulse.Timeslot → Bool
  | [] => false
  | t :: rest => rest.any (Pulse.conflictB t) || Pulse.hasCollision rest

/-- A collection of timeslots satisfying the occupancy invariant: no two
timeslots on the same channel overlap. -/
def Pulse.noCollision (l : List Pulse.Timeslot) : Prop :=
  Pulse.hasCollision l = false

/-- Modelled from the spec: per-channel earliest start
(`channel_start(o, channels)`, spec section 4.1).  Channels that do not
appear in the collection contribute nothing; when none of the requested
channels appear the result is `0` — the guard-free callers in
`ops.append` and the spec's section 4.2 rule "if no shared channels,
`insertion_time = 0`" require this total behaviour. -/
def Pulse.ch_start_ts (slots : List Pulse.Timeslot) (chs : List Pulse.Channel) : Int :=
  match (slots.filter fun t => decide (t.channel ∈ chs)).map (fun t => t.interval.start) with
  | [] => 0
  | x :: xs => xs.foldl min x

/-- Modelled from the spec: per-channel latest stop
(`channel_stop(o, channels)`, spec section 4.1), `0` when no requested
channel appears (see `Pulse.ch_start_ts`). -/
def Pulse.ch_stop_ts (slots : List Pulse.Timeslot) (chs : List Pulse.Channel) : Int :=
  match (slots.filter fun t => decide (t.channel ∈ chs)).map (fun t => t.interval.stop) with
  | [] => 0
  | x :: xs => xs.foldl max x

/-- Modelled from the spec: the channels appearing in an occupancy
collection (`TimeslotCollection.channels`), deduplicated in order of
first appearance. -/
def Pulse.channelsOfSlots (slots : List Pulse.Timeslot) : List Pulse.Channel :=
  (slots.map fun t => t.channel).dedup

/-- Modelled from the spec: global earliest start of the collection. -/
def Pulse.start_ts (slots : List Pulse.Timeslot) : Int :=
  Pulse.ch_start_ts slots (Pulse.channelsOfSlots slots)

/-- Modelled from the spec: global latest stop of the collection. -/
def Pulse.stop_ts (slots : List Pulse.Timeslot) : Int :=
  Pulse.ch_stop_ts slots (Pulse.channelsOfSlots slots)

/-- Modelled from the spec: a fragment's `duration`, measured as the
global latest stop, which is how the alignment code consumes it
(`align_in_sequence` inserts at `aligned.duration`, and `right_align`
measures a channel span as `duration - start_time`). -/
def Pulse.duration_ts (slots : List Pulse.Timeslot) : Int :=
  Pulse.stop_ts slots

/-- The tree IR.  `schedule.py` class `Schedule` is the composite node:
an ordered tuple of children `_children`, one local time shift `_shift`
applied to all of them, and the composite `TimeslotCollection`
`_timeslots` computed and stored by `__init__` (the `tslots` field; see
`Pulse.Schedule.mk`, the only producer of `node` values in this
development).  A leaf (`Instruction`, declared in the external leaf
catalog) carries a fixed duration and the fixed set of channels it
occupies for that duration (spec section 3); its payload is irrelevant
to scheduling and omitted. -/
inductive Pulse.SchedComp where
  | leaf (dur : Int) (chans : List Pulse.Channel)
  | node (children : List Pulse.SchedComp) (shift : Int) (tslots : List Pulse.Timeslot)
deriving Repr

/-- Occupancy of a fragment: the `timeslots` property.  A composite
returns its stored `_timeslots`; a leaf occupies `[0, dur)` on each of
its channels. -/
def Pulse.SchedComp.slots : Pulse.SchedComp → List Pulse.Timeslot
  | .leaf d chs => chs.map fun c => ⟨⟨0, d⟩, c⟩
  | .node _ _ ts => ts

/-- Channels used by a fragment (`Schedule.channels`). -/
def Pulse.SchedComp.channels (s : Pulse.SchedComp) : List Pulse.Channel :=
  Pulse.channelsOfSlots s.slots

/-- Errors of the embedded code.  `collision` is the
`PulseError('Child schedules ... overlap.')` raised by
`Schedule.__init__`; `typeError` and `attributeError` are the Python
dynamic errors raised when a function is called with an unexpected
keyword argument, respectively when a missing attribute is read. -/
inductive Pulse.PErr where
  | collision
  | typeError
  | attributeError
deriving DecidableEq, Repr

/-- `Schedule.__init__(*schedules, shift=0, name=None)` (schedule.py
28-54), the constructor as declared — callable only with the keyword
`shift`: store the children and the shift, and build the composite
`TimeslotCollection` from the children's collections shifted by
`shift`; raise `PulseError` if the combined timeslots intercept.  Names
are carried verbatim by the Python code and never influence timing, so
they are omitted here.  (The `ops.py` wrappers below never reach this
body: they pass the keyword `shift_time`, which this signature
rejects.) -/
def Pulse.Schedule.mk (children : List Pulse.SchedComp) (sh : Int) :
    Except Pulse.PErr Pulse.SchedComp :=
  if Pulse.hasCollision ((children.map fun c => c.slots.map (Pulse.Timeslot.shift sh)).flatten)
  then .error .collision
  else .ok (Pulse.SchedComp.node children sh
    ((children.map fun c => c.slots.map (Pulse.Timeslot.shift sh)).flatten))

/-- `ops.union(*schedules, shift_time=0)` (ops.py 22-33): its body ends
in `Schedule(*schedules, shift_time=shift_time, name=name)`, but
`Schedule.__init__` (schedule.py:28) accepts only the keyword `shift`,
so Python raises `TypeError` at argument binding on every call — the
constructor body (and with it the collision check) is never reached. -/
def Pulse.union (_schedules : List Pulse.SchedComp) (_shift_time : Int) :
    Except Pulse.PErr Pulse.SchedComp :=
  .error .typeError

/-- `ops.shift(schedule, time)` (ops.py 38-48): its body ends in
`Schedule(schedule, shift_time=time, name=name)`; as with `ops.union`,
the `shift_time` keyword does not exist on `Schedule.__init__`, so
every call raises `TypeError` before any composite is built. -/
def Pulse.shift (_schedule : Pulse.SchedComp) (_time : Int) :
    Except Pulse.PErr Pulse.SchedComp :=
  .error .typeError

/-- `ops.insert(parent, start_time, child)`:
`union(parent, shift(child, start_time))`.  Python evaluates the
argument `shift(child, start_time)` first, which always raises
`TypeError` (see `Pulse.shift`), so `insert` always fails with that
error. -/
def Pulse.insert (parent : Pulse.SchedComp) (start_time : Int)
    (child : Pulse.SchedComp) : Except Pulse.PErr Pulse.SchedComp := do
  Pulse.union [parent, ← Pulse.shift child start_time] 0

/-- `Schedule.ch_stop_time(*channels)`: delegates to
`timeslots.ch_stop_time`. -/
def Pulse.SchedComp.ch_stop_time (s : Pulse.SchedComp) (chs : List Pulse.Channel) : Int :=
  Pulse.ch_stop_ts s.slots chs

/-- `Schedule.ch_start_time(*channels)`: delegates to
`timeslots.ch_start_time`. -/
def Pulse.SchedComp.ch_start_time (s : Pulse.SchedComp) (chs : List Pulse.Channel) : Int :=
  Pulse.ch_start_ts s.slots chs

/-- `Schedule.ch_duration(*channels)`: its body returns
`self.timeslots.ch_start_time(*channels)` (schedule.py line 98). -/
def Pulse.SchedComp.ch_duration (s : Pulse.SchedComp) (chs : List Pulse.Channel) : Int :=
  Pulse.ch_start_ts s.slots chs

/-- `Schedule.stop_time` / `TimeslotCollection.stop_time`. -/
def Pulse.SchedComp.stop_time (s : Pulse.SchedComp) : Int :=
  Pulse.stop_ts s.slots

/-- `Schedule.start_time` / `TimeslotCollection.start_time`. -/
def Pulse.SchedComp.start_time (s : Pulse.SchedComp) : Int :=
  Pulse.start_ts s.slots

/-- `Schedule.duration`. -/
def Pulse.SchedComp.duration (s : Pulse.SchedComp) : Int :=
  Pulse.duration_ts s.slots

/-- The insertion time `ops.append` computes (ops.py 77-78) before it
calls `insert`: `parent.ch_stop_time(*common_channels)` where
`common_channels` is the channel intersection of the two fragments. -/
def Pulse.appendInsertionTime (parent child : Pulse.SchedComp) : Int :=
  let common_channels := parent.channels.filter fun c => decide (c ∈ child.channels)
  parent.ch_stop_time common_channels

/-- `ops.append(parent, child)` (ops.py 64-79): computes
`appendInsertionTime` and calls `insert(parent, insertion_time, child)`
— which always raises `TypeError` through `ops.shift`'s `shift_time`
keyword, so `append` never performs an insertion. -/
def Pulse.append (parent child : Pulse.SchedComp) : Except Pulse.PErr Pulse.SchedComp :=
  Pulse.insert parent (Pulse.appendInsertionTime parent child) child

/-- `Schedule()`: the empty schedule (no children, shift 0, empty
collection). -/
def Pulse.emptySchedule : Pulse.SchedComp :=
  Pulse.SchedComp.node [] 0 []

example : Pulse.emptySchedule.slots = [] := rfl

example :
    Pulse.Schedule.mk [Pulse.SchedComp.leaf 5 [⟨0, 0⟩]] 2 =
      .ok (Pulse.SchedComp.node [Pulse.SchedComp.leaf 5 [⟨0, 0⟩]] 2 [⟨⟨2, 7⟩, ⟨0, 0⟩⟩]) := rfl

example : Pulse.shift (Pulse.SchedComp.leaf 5 [⟨0, 0⟩]) 2 = .error .typeError := rfl

example :
    Pulse.append (Pulse.SchedComp.leaf 5 [⟨0, 0⟩]) (Pulse.SchedComp.leaf 3 [⟨0, 0⟩]) =
      .error .typeError := rfl

/-- Minimum of a list of integers (`0` on the empty list, matching the
`TimeslotCollection` queries that fall back to `0`). -/
def Pulse.minOver : List Int → Int
  | [] => 0
  | x :: xs => xs.foldl min x

/-- Maximum of a list of integers (`0` on the empty list). -/
def Pulse.maxOver : List Int → Int
  | [] => 0
  | x :: xs => xs.foldl max x

/-- Index of the first minimal element, `np.argmin`: ties resolve to the
earliest index (`0` on the empty list). -/
def Pulse.idxOfMin : List Int → Nat
  | [] => 0
  | [_] => 0
  | x :: y :: rest =>
    if x ≤ Pulse.minOver (y :: rest) then 0 else Pulse.idxOfMin (y :: rest) + 1

/-- `list(set(this.channels) & set(other.channels))` from
`alignment.push_append` and `ops.append`.  A CPython `set` iterates in
hash order; the embedding fixes first-appearance order in
`this.channels`.  Only maxima/minima over this list are ever consumed,
so the ordering is immaterial to every property proved below. -/
def Pulse.sharedChannels (this other : Pulse.SchedComp) : List Pulse.Channel :=
  this.channels.filter fun c => decide (c ∈ other.channels)

/-- The insertion time `alignment.push_append` computes (alignment.py
36-45) before it calls `this.insert`: build the per-channel slack list
`this.stop_time - this.ch_stop_time(ch) + other.ch_start_time(ch)`
over the shared channels; if it is non-empty pick the channel of
minimal slack (`np.argmin`) and use
`this.ch_stop_time(slack_chan) - other.ch_start_time(slack_chan)`,
otherwise `0`. -/
def Pulse.push_append_insert_time (this other : Pulse.SchedComp) : Int :=
  let channels := Pulse.sharedChannels this other
  let ch_slacks := channels.map fun channel =>
    this.stop_time - this.ch_stop_time [channel] + other.ch_start_time [channel]
  if ch_slacks.isEmpty then 0
  else
    let slack_chan := channels.getD (Pulse.idxOfMin ch_slacks) default
    this.ch_stop_time [slack_chan] - other.ch_start_time [slack_chan]

/-- `alignment.push_append(this, other)`: computes the insertion time
and returns `this.insert(insert_time, other)` (alignment.py:46) — a
call that always raises `TypeError`, because `Schedule.insert`
delegates to `ops.insert` → `ops.shift`, which passes the `shift_time`
keyword that `Schedule.__init__` does not accept. -/
def Pulse.push_append (this other : Pulse.SchedComp) : Except Pulse.PErr Pulse.SchedComp :=
  Pulse.insert this (Pulse.push_append_insert_time this other) other

/-- The accumulation loop of `alignment.left_align`: Python folds a
`Schedule` value through `push_append`, with any raised error
propagating out of the loop.  Since `push_append` always raises
`TypeError` (see above), the loop fails on its first iteration for any
non-empty input and only the empty input returns a schedule. -/
def Pulse.leftAlignAux :
    Except Pulse.PErr Pulse.SchedComp → List Pulse.SchedComp → Except Pulse.PErr Pulse.SchedComp
  | acc, [] => acc
  | .error e, _ :: _ => .error e
  | .ok a, i :: rest => Pulse.leftAlignAux (Pulse.push_append a i) rest

/-- `alignment.left_align(*instructions)`: fold `push_append` over the
instructions starting from `pulse.Schedule()`. -/
def Pulse.left_align (instructions : List Pulse.SchedComp) : Except Pulse.PErr Pulse.SchedComp :=
  Pulse.leftAlignAux (.ok Pulse.emptySchedule) instructions

/-- The insertion time of the specification's greedy left-pack rule,
written from the spec's words (section 4.3): `max` over the channels `c`
shared between the accumulator and `f` of
`accumulator.channel_stop(c) - f.channel_start(c)`, or `0` if there are
no shared channels.  Named `spec...` because it is the spec-side of the
refinement claim C2; the code-side is `Pulse.push_append_insert_time`. -/
def Pulse.specInsertTime (acc f : Pulse.SchedComp) : Int :=
  let shared := Pulse.sharedChannels acc f
  if shared.isEmpty then 0
  else Pulse.maxOver (shared.map fun c => acc.ch_stop_time [c] - f.ch_start_time [c])

/-- Calling the src `Schedule.insert` with a keyword argument
`mutate=True`: `schedule.py` declares
`def insert(self, start_time, schedule)` with no `mutate` parameter, so
Python raises `TypeError` on the call, before any schedule is built.
`alignment.align_in_sequence` and `alignment.right_align` (and the
builder's `append` calls) pass `mutate=True`. -/
def Pulse.insertMutateCall (_this : Pulse.SchedComp) (_start_time : Int)
    (_sched : Pulse.SchedComp) : Except Pulse.PErr Pulse.SchedComp :=
  .error .typeError

/-- The loop of `alignment.align_in_sequence`: each iteration evaluates
`aligned.insert(aligned.duration, instruction, mutate=True)` and
discards the returned value (the loop never rebinds `aligned`); a
raised error propagates. -/
def Pulse.alignInSequenceAux :
    Except Pulse.PErr Pulse.SchedComp → List Pulse.SchedComp → Except Pulse.PErr Pulse.SchedComp
  | acc, [] => acc
  | .error e, _ :: _ => .error e
  | .ok a, i :: rest =>
    match Pulse.insertMutateCall a a.duration i with
    | .error e => .error e
    | .ok _ => Pulse.alignInSequenceAux (.ok a) rest

/-- `alignment.align_in_sequence(*instructions)`. -/
def Pulse.align_in_sequence (instructions : List Pulse.SchedComp) :
    Except Pulse.PErr Pulse.SchedComp :=
  Pulse.alignInSequenceAux (.ok Pulse.emptySchedule) instructions

/-- `alignment.right_align(*instructions)`: first `left_align` — which
raises `TypeError` on any non-empty input (see `Pulse.push_append`),
and that error propagates.  In the only surviving case (empty input)
the left-aligned schedule has no channels, the per-channel span loop
body never runs, and the final loop reads `left_aligned.instructions`,
which the src `Schedule` does not define, raising `AttributeError`. -/
def Pulse.right_align (instructions : List Pulse.SchedComp) :
    Except Pulse.PErr Pulse.SchedComp :=
  match Pulse.left_align instructions with
  | .error e => .error e
  | .ok _ => .error .attributeError

/-- Builder-level leaf operations (`builder.py`).  Only the payload
fields that the claims mention are kept: `ShiftPhase(phase, channel)`
and a generic played leaf.  Python's `float` phase is modelled as `ℚ`
(the claims are algebraic identities on the phase values, not
floating-point rounding statements). -/
inductive Builder.BInstr where
  | shiftPhase (phase : ℚ) (ch : Pulse.Channel)
  | play (dur : Int) (ch : Pulse.Channel)
deriving DecidableEq, Repr

/-- `_PulseBuilder.append_instruction` (builder.py:386-388): its body is
`self.block.append(instruction, mutate=True)`.  The builder's block is
a `Schedule` from the src `schedule.py` (builder.py imports it and
seeds the block with `Schedule()`), and that class declares
`def append(self, schedule)` (schedule.py:147) with no `mutate`
parameter — so Python raises `TypeError` at argument binding and
nothing is ever appended to the block (modelled as the would-be leaf
sequence). -/
def Builder.append_instruction (_blk : List Builder.BInstr) (_i : Builder.BInstr) :
    Except Pulse.PErr (List Builder.BInstr) :=
  .error .typeError

/-- `builder.shift_phase(phase, channel)` (builder.py:1367):
`append_instruction(instructions.ShiftPhase(phase, channel))` — always
raises `TypeError` through `append_instruction`'s `mutate=True` call. -/
def Builder.shift_phase (phase : ℚ) (ch : Pulse.Channel) (blk : List Builder.BInstr) :
    Except Pulse.PErr (List Builder.BInstr) :=
  Builder.append_instruction blk (.shiftPhase phase ch)

/-- `builder.phase_offset(phase, channel)` (builder.py 1008-1040):
`shift_phase(phase, channel)` on entry — placed before the `try`, so
when it raises the context terminates with that error and neither the
body nor the `finally` (`shift_phase(-phase, channel)`) ever runs.  The
`finally` rewind is modelled on the success path only; it is
unreachable here because the entry call always raises. -/
def Builder.phase_offset (phase : ℚ) (ch : Pulse.Channel)
    (body : List Builder.BInstr → Except Pulse.PErr (List Builder.BInstr))
    (blk : List Builder.BInstr) : Except Pulse.PErr (List Builder.BInstr) := do
  let blk1 ← Builder.shift_phase phase ch blk
  let blk2 ← body blk1
  Builder.shift_phase (-phase) ch blk2

/-- Object-store view of a `ScheduleComponent`, for the frame
(immutability) claim: a Python `Schedule` object is a record of the
fields written once by `__init__` — `_children` (references, here store
indices), `_shift`, and the computed `_timeslots`.  A leaf is a record
with no children whose stored collection is its own occupancy. -/
structure Pulse.HObj where
  children : List Nat
  shift : Int
  timeslots : List Pulse.Timeslot
deriving DecidableEq, Repr

/-- The store of constructed schedule objects; an object's identity is
its index, and `Schedule.__init__` only ever appends a fresh object. -/
abbrev Pulse.Heap := List Pulse.HObj

/-- Dereference an object id (a dangling id yields an inert empty
object; the operations below are only ever applied to live ids). -/
def Pulse.heapGet (h : Pulse.Heap) (i : Nat) : Pulse.HObj :=
  h.getD i ⟨[], 0, []⟩

/-- `Schedule.__init__` on the object store — the constructor invoked
with its declared `shift` keyword: read each child's stored collection,
shift by `sh`, chain, collision-check; on success append the one
freshly constructed object and return its id; on failure raise without
registering any object. -/
def Pulse.heapMk (h : Pulse.Heap) (ids : List Nat) (sh : Int) :
    Pulse.Heap × Except Pulse.PErr Nat :=
  if Pulse.hasCollision
      ((ids.map fun i => (Pulse.heapGet h i).timeslots.map (Pulse.Timeslot.shift sh)).flatten)
  then (h, .error .collision)
  else (h ++ [⟨ids, sh,
    (ids.map fun i => (Pulse.heapGet h i).timeslots.map (Pulse.Timeslot.shift sh)).flatten⟩],
    .ok h.length)

/-- `ops.union` on the object store: the call
`Schedule(*schedules, shift_time=...)` raises `TypeError` at argument
binding — the constructor is never entered, no object is constructed
and the store is returned unchanged. -/
def Pulse.unionH (h : Pulse.Heap) (_ids : List Nat) (_sh : Int) :
    Pulse.Heap × Except Pulse.PErr Nat :=
  (h, .error .typeError)

/-- `ops.shift` on the object store: as with `union`, the `shift_time`
keyword aborts the call before construction; the store is unchanged. -/
def Pulse.shiftH (h : Pulse.Heap) (_i : Nat) (_t : Int) :
    Pulse.Heap × Except Pulse.PErr Nat :=
  (h, .error .typeError)

/-- `ops.insert` on the object store:
`union(parent, shift(child, start_time))`; the inner `shift` raises
`TypeError` first, which propagates. -/
def Pulse.insertH (h : Pulse.Heap) (p : Nat) (t : Int) (c : Nat) :
    Pulse.Heap × Except Pulse.PErr Nat :=
  match Pulse.shiftH h c t with
  | (h', .ok sc) => Pulse.unionH h' [p, sc] 0
  | (h', .error e) => (h', .error e)

/-- `ops.append` on the object store: computes the shared channels and
insertion time from the stored collections (reads only), then calls
`insert`, which raises `TypeError`. -/
def Pulse.appendH (h : Pulse.Heap) (p : Nat) (c : Nat) :
    Pulse.Heap × Except Pulse.PErr Nat :=
  let common := (Pulse.channelsOfSlots (Pulse.heapGet h p).timeslots).filter
    fun ch => decide (ch ∈ Pulse.channelsOfSlots (Pulse.heapGet h c).timeslots)
  Pulse.insertH h p (Pulse.ch_stop_ts (Pulse.heapGet h p).timeslots common) c

theorem Pulse.conflictB_symm (a b : Pulse.Timeslot) :
    Pulse.conflictB a b = Pulse.conflictB b a := by
  simp only [Pulse.conflictB]
  by_cases h : a.channel = b.channel <;> simp [h, eq_comm, Bool.and_comm]

theorem Pulse.conflictB_shift (dt : Int) (a b : Pulse.Timeslot) :
    Pulse.conflictB (Pulse.Timeslot.shift dt a) (Pulse.Timeslot.shift dt b) =
      Pulse.conflictB a b := by
  simp [Pulse.conflictB, Pulse.Timeslot.shift]

theorem Pulse.hasCollision_eq_false_iff (l : List Pulse.Timeslot) :
    Pulse.hasCollision l = false ↔ l.Pairwise fun a b => Pulse.conflictB a b = false := by
  induction l with
  | nil => simp [Pulse.hasCollision]
  | cons t rest ih =>
    simp [Pulse.hasCollision, List.pairwise_cons, ih, List.any_eq_false]

theorem Pulse.hasCollision_map_shift (dt : Int) (l : List Pulse.Timeslot) :
    Pulse.hasCollision (l.map (Pulse.Timeslot.shift dt)) = Pulse.hasCollision l := by
  induction l with
  | nil => rfl
  | cons t rest ih =>
    simp only [List.map_cons, Pulse.hasCollision, ih, List.any_map, Function.comp_def,
      Pulse.conflictB_shift]

theorem Pulse.Timeslot.shift_shift (a b : Int) (t : Pulse.Timeslot) :
    Pulse.Timeslot.shift b (Pulse.Timeslot.shift a t) = Pulse.Timeslot.shift (a + b) t := by
  simp [Pulse.Timeslot.shift, Int.add_assoc]

theorem Pulse.foldl_min_min (l : List Int) : ∀ a b : Int,
    l.foldl min (min a b) = min a (l.foldl min b) := by
  induction l with
  | nil => intro a b; rfl
  | cons x xs ih =>
    intro a b
    show xs.foldl min (min (min a b) x) = min a (xs.foldl min (min b x))
    rw [min_assoc, ih]

theorem Pulse.foldl_max_max (l : List Int) : ∀ a b : Int,
    l.foldl max (max a b) = max a (l.foldl max b) := by
  induction l with
  | nil => intro a b; rfl
  | cons x xs ih =>
    intro a b
    show xs.foldl max (max (max a b) x) = max a (xs.foldl max (max b x))
    rw [max_assoc, ih]

theorem Pulse.minOver_cons (x y : Int) (xs : List Int) :
    Pulse.minOver (x :: y :: xs) = min x (Pulse.minOver (y :: xs)) := by
  show (y :: xs).foldl min x = min x (xs.foldl min y)
  show xs.foldl min (min x y) = min x (xs.foldl min y)
  exact Pulse.foldl_min_min xs x y

theorem Pulse.maxOver_cons (x y : Int) (xs : List Int) :
    Pulse.maxOver (x :: y :: xs) = max x (Pulse.maxOver (y :: xs)) := by
  show xs.foldl max (max x y) = max x (xs.foldl max y)
  exact Pulse.foldl_max_max xs x y

theorem Pulse.getD_idxOfMin :
    ∀ l : List Int, l ≠ [] → l.getD (Pulse.idxOfMin l) 0 = Pulse.minOver l
  | [], h => absurd rfl h
  | [x], _ => by simp [Pulse.idxOfMin, Pulse.minOver]
  | x :: y :: rest, _ => by
    have ih := Pulse.getD_idxOfMin (y :: rest) (by simp)
    by_cases hx : x ≤ Pulse.minOver (y :: rest)
    · simp [Pulse.idxOfMin, hx, Pulse.minOver_cons, min_eq_left hx]
    · have hlt : Pulse.minOver (y :: rest) < x := lt_of_not_ge hx
      rw [Pulse.idxOfMin, if_neg hx, Pulse.minOver_cons, min_eq_right (le_of_lt hlt),
        List.getD_cons_succ]
      exact ih

theorem Pulse.idxOfMin_lt_length :
    ∀ l : List Int, l ≠ [] → Pulse.idxOfMin l < l.length
  | [], h => absurd rfl h
  | [_], _ => by simp [Pulse.idxOfMin]
  | x :: y :: rest, _ => by
    have ih := Pulse.idxOfMin_lt_length (y :: rest) (by simp)
    by_cases hx : x ≤ Pulse.minOver (y :: rest)
    · simp [Pulse.idxOfMin, hx]
    · rw [Pulse.idxOfMin, if_neg hx]
      simpa using ih

theorem Pulse.minOver_map_sub {α : Type} (K : Int) (v : α → Int) :
    ∀ l : List α, l ≠ [] →
      Pulse.minOver (l.map fun c => K - v c) = K - Pulse.maxOver (l.map v)
  | [], h => absurd rfl h
  | [c], _ => by simp [Pulse.minOver, Pulse.maxOver]
  | c :: d :: rest, _ => by
    have ih := Pulse.minOver_map_sub K v (d :: rest) (by simp)
    have e1 : Pulse.minOver ((c :: d :: rest).map fun c => K - v c) =
        min (K - v c) (Pulse.minOver ((d :: rest).map fun c => K - v c)) :=
      Pulse.minOver_cons (K - v c) (K - v d) (rest.map fun c => K - v c)
    have e2 : Pulse.maxOver ((c :: d :: rest).map v) =
        max (v c) (Pulse.maxOver ((d :: rest).map v)) :=
      Pulse.maxOver_cons (v c) (v d) (rest.map v)
    rw [e1, e2, ih]
    omega

theorem Pulse.getD_map {α : Type} (l : List α) (f : α → Int) (i : Nat) (d : α)
    (h : i < l.length) : (l.map f).getD i 0 = f (l.getD i d) := by
  rw [List.getD_eq_getElem?_getD, List.getD_eq_getElem?_getD, List.getElem?_map,
    List.getElem?_eq_getElem h]
  rfl

/-- Choosing the channel of minimal slack `K - v c` (first occurrence,
as `np.argmin` does) yields a channel whose value `v` attains the
maximum of `v` over the list. -/
theorem Pulse.argmin_slack_eq_max (L : List Pulse.Channel) (hL : L ≠ [])
    (v : Pulse.Channel → Int) (K : Int) :
    v (L.getD (Pulse.idxOfMin (L.map fun c => K - v c)) default) =
      Pulse.maxOver (L.map v) := by
  have hmapne : L.map (fun c => K - v c) ≠ [] := by
    simpa [List.map_eq_nil_iff] using hL
  have hidx : Pulse.idxOfMin (L.map fun c => K - v c) < L.length := by
    have h := Pulse.idxOfMin_lt_length _ hmapne
    simpa using h
  have h1 : (L.map fun c => K - v c).getD (Pulse.idxOfMin (L.map fun c => K - v c)) 0 =
      K - v (L.getD (Pulse.idxOfMin (L.map fun c => K - v c)) default) :=
    Pulse.getD_map L (fun c => K - v c) (Pulse.idxOfMin (L.map fun c => K - v c)) default hidx
  have h2 := Pulse.getD_idxOfMin _ hmapne
  have h3 := Pulse.minOver_map_sub K v L hL
  omega

theorem Pulse.mk_error_iff (cs : List Pulse.SchedComp) (sh : Int) :
    Pulse.Schedule.mk cs sh = .error .collision ↔
      Pulse.hasCollision ((cs.map fun c => c.slots.map (Pulse.Timeslot.shift sh)).flatten) =
        true := by
  simp only [Pulse.Schedule.mk]
  split <;> rename_i h <;> simp_all

theorem Pulse.mk_ok_iff (cs : List Pulse.SchedComp) (sh : Int) (s : Pulse.SchedComp) :
    Pulse.Schedule.mk cs sh = .ok s ↔
      Pulse.hasCollision ((cs.map fun c => c.slots.map (Pulse.Timeslot.shift sh)).flatten) =
        false ∧
      s = .node cs sh ((cs.map fun c => c.slots.map (Pulse.Timeslot.shift sh)).flatten) := by
  simp only [Pulse.Schedule.mk]
  split <;> rename_i h
  · simp [h]
  · rw [Bool.not_eq_true] at h
    simp only [h, Except.ok.injEq, true_and]
    exact eq_comm

theorem Pulse.mk_ok_noCollision (cs : List Pulse.SchedComp) (sh : Int) (s : Pulse.SchedComp)
    (h : Pulse.Schedule.mk cs sh = .ok s) : Pulse.noCollision s.slots := by
  rw [Pulse.mk_ok_iff] at h
  obtain ⟨hc, rfl⟩ := h
  exact hc

/-- A direct constructor call `Schedule(s, shift=t)` — reachable only
with the declared keyword — succeeds on any fragment satisfying the
occupancy invariant, storing the uniformly shifted collection. -/
theorem Pulse.mk_single_ok (s : Pulse.SchedComp) (t : Int) (h : Pulse.noCollision s.slots) :
    Pulse.Schedule.mk [s] t = .ok (.node [s] t (s.slots.map (Pulse.Timeslot.shift t))) := by
  have hcomb : (([s].map fun c => c.slots.map (Pulse.Timeslot.shift t)).flatten) =
      s.slots.map (Pulse.Timeslot.shift t) := by simp
  rw [Pulse.Schedule.mk, hcomb, Pulse.hasCollision_map_shift,
    if_neg (by rw [Bool.not_eq_true]; exact h)]

theorem Pulse.leftAlignAux_error (rest : List Pulse.SchedComp) (e : Pulse.PErr) :
    Pulse.leftAlignAux (.error e) rest = .error e := by
  cases rest <;> rfl

theorem Pulse.bool_true_iff_not_false (b : Bool) : b = true ↔ ¬b = false := by
  cases b <;> simp

theorem Pulse.not_pairwise_cross_iff (L : List (List Pulse.Timeslot)) :
    (¬L.Pairwise fun l₁ l₂ => ∀ x ∈ l₁, ∀ y ∈ l₂, Pulse.conflictB x y = false) ↔
      ∃ i j, ∃ _hi : i < L.length, ∃ _hj : j < L.length, i ≠ j ∧
        ∃ a ∈ L[i], ∃ b ∈ L[j], Pulse.conflictB a b = true := by
  rw [List.pairwise_iff_getElem]
  constructor
  · intro h
    by_contra hcon
    apply h
    intro i j hi hj hlt x hx y hy
    by_contra hxy
    have hxy' : Pulse.conflictB x y = true := by simpa using hxy
    exact hcon ⟨i, j, hi, hj, Nat.ne_of_lt hlt, x, hx, y, hy, hxy'⟩
  · rintro ⟨i, j, hi, hj, hij, a, ha, b, hb, hab⟩
    intro hPW
    rcases Nat.lt_or_ge i j with hlt | hge
    · have hfalse := hPW i j hi hj hlt a ha b hb
      rw [hab] at hfalse
      cases hfalse
    · have hjl : j < i := Nat.lt_of_le_of_ne hge (Ne.symm hij)
      have hfalse := hPW j i hj hi hjl b hb a ha
      rw [Pulse.conflictB_symm b a, hab] at hfalse
      cases hfalse

/-- C1: every `ops.union` call raises `TypeError` — ops.py:33 passes
the keyword `shift_time` to `Schedule.__init__`, which accepts only
`shift` (schedule.py:28) — so `union` can neither raise the collision
`PulseError` nor return a composite.  The constructor
`Schedule.__init__` itself, the behaviour the claim describes (its
docstring: "Raises PulseError: If timeslots intercept"), fails with the
collision `PulseError` iff two distinct children have, after the
pre-shift, overlapping timeslots on a common channel, and on success
its stored occupancy has no two overlapping timeslots on the same
channel.  The hypothesis is the occupancy invariant for each input
fragment. -/
theorem C1_union_type_error_init_collision_iff (frags : List Pulse.SchedComp) (sh : Int)
    (hwf : ∀ f ∈ frags, Pulse.noCollision f.slots) :
    Pulse.union frags sh = .error .typeError ∧
    (Pulse.Schedule.mk frags sh = .error .collision ↔
      ∃ i j, ∃ _hi : i < frags.length, ∃ _hj : j < frags.length, i ≠ j ∧
        ∃ a ∈ frags[i].slots.map (Pulse.Timeslot.shift sh),
          ∃ b ∈ frags[j].slots.map (Pulse.Timeslot.shift sh),
            a.channel = b.channel ∧ a.interval.start < b.interval.stop ∧
              b.interval.start < a.interval.stop) ∧
    (∀ s, Pulse.Schedule.mk frags sh = .ok s → Pulse.noCollision s.slots) := by
  refine ⟨rfl, ?_, fun s hs => Pulse.mk_ok_noCollision frags sh s hs⟩
  have hA : ∀ l ∈ frags.map fun f => f.slots.map (Pulse.Timeslot.shift sh),
      l.Pairwise fun a b => Pulse.conflictB a b = false := by
    intro l hl
    rw [List.mem_map] at hl
    obtain ⟨f, hf, rfl⟩ := hl
    rw [← Pulse.hasCollision_eq_false_iff, Pulse.hasCollision_map_shift]
    exact hwf f hf
  rw [Pulse.mk_error_iff,
    Pulse.bool_true_iff_not_false, Pulse.hasCollision_eq_false_iff, List.pairwise_flatten,
    and_iff_right hA, Pulse.not_pairwise_cross_iff]
  constructor
  · rintro ⟨i, j, hi, hj, hij, a, ha, b, hb, hab⟩
    have hi' : i < frags.length := by simpa using hi
    have hj' : j < frags.length := by simpa using hj
    rw [List.getElem_map] at ha hb
    refine ⟨i, j, hi', hj', hij, a, ha, b, hb, ?_⟩
    simpa [Pulse.conflictB, Bool.and_eq_true, decide_eq_true_eq, and_assoc] using hab
  · rintro ⟨i, j, hi, hj, hij, a, ha, b, hb, hcc, h1, h2⟩
    have hi' : i < (frags.map fun f => f.slots.map (Pulse.Timeslot.shift sh)).length := by
      simpa using hi
    have hj' : j < (frags.map fun f => f.slots.map (Pulse.Timeslot.shift sh)).length := by
      simpa using hj
    refine ⟨i, j, hi', hj', hij, a, ?_, b, ?_, ?_⟩
    · rw [List.getElem_map]
      exact ha
    · rw [List.getElem_map]
      exact hb
    · simp [Pulse.conflictB, Bool.and_eq_true, decide_eq_true_eq, hcc, h1, h2]

/-- Witness for C1: with two overlapping leaves on the same channel
`union` raises `TypeError` (not the collision error), while the
constructor's collision characterisation produces the overlapping
pair. -/
theorem C1_union_type_error_init_collision_iff_witness :
    Pulse.union [Pulse.SchedComp.leaf 5 [⟨0, 0⟩], Pulse.SchedComp.leaf 3 [⟨0, 0⟩]] 0 =
      .error .typeError ∧
    ∃ i j,
      ∃ _hi : i < [Pulse.SchedComp.leaf 5 [⟨0, 0⟩], Pulse.SchedComp.leaf 3 [⟨0, 0⟩]].length,
      ∃ _hj : j < [Pulse.SchedComp.leaf 5 [⟨0, 0⟩], Pulse.SchedComp.leaf 3 [⟨0, 0⟩]].length,
      i ≠ j ∧
      ∃ a ∈ ([Pulse.SchedComp.leaf 5 [⟨0, 0⟩],
          Pulse.SchedComp.leaf 3 [⟨0, 0⟩]][i]).slots.map (Pulse.Timeslot.shift 0),
        ∃ b ∈ ([Pulse.SchedComp.leaf 5 [⟨0, 0⟩],
            Pulse.SchedComp.leaf 3 [⟨0, 0⟩]][j]).slots.map (Pulse.Timeslot.shift 0),
          a.channel = b.channel ∧ a.interval.start < b.interval.stop ∧
            b.interval.start < a.interval.stop := by
  have h := C1_union_type_error_init_collision_iff
    [Pulse.SchedComp.leaf 5 [⟨0, 0⟩], Pulse.SchedComp.leaf 3 [⟨0, 0⟩]] 0
    (by
      intro f hf
      simp only [List.mem_cons, List.not_mem_nil, or_false] at hf
      rcases hf with rfl | rfl <;> rfl)
  exact ⟨h.1, h.2.1.mp rfl⟩

/-- The insertion time `push_append` computes (before its failing
`insert` call) equals the specification's greedy left-pack rule. -/
theorem Pulse.push_append_time_eq_spec (a f : Pulse.SchedComp) :
    Pulse.push_append_insert_time a f = Pulse.specInsertTime a f := by
  simp only [Pulse.push_append_insert_time, Pulse.specInsertTime]
  by_cases hch : Pulse.sharedChannels a f = []
  · rw [hch]
    simp
  · have hm : ((Pulse.sharedChannels a f).map fun channel =>
        a.stop_time - a.ch_stop_time [channel] + f.ch_start_time [channel]).isEmpty = false := by
      cases hL : Pulse.sharedChannels a f with
      | nil => exact absurd hL hch
      | cons x xs => rfl
    have hm' : (Pulse.sharedChannels a f).isEmpty = false := by
      cases hL : Pulse.sharedChannels a f with
      | nil => exact absurd hL hch
      | cons x xs => rfl
    rw [hm, hm']
    simp only [Bool.false_eq_true, if_false]
    have hfun : (fun channel => a.stop_time - a.ch_stop_time [channel] +
          f.ch_start_time [channel]) =
        fun c => a.stop_time - (a.ch_stop_time [c] - f.ch_start_time [c]) :=
      funext fun c => by omega
    rw [hfun]
    exact Pulse.argmin_slack_eq_max (Pulse.sharedChannels a f) hch
      (fun c => a.ch_stop_time [c] - f.ch_start_time [c]) a.stop_time

/-- C2: `left_align` never inserts anything — on any non-empty input
its first `push_append` computes the insertion time and then calls
`this.insert(insert_time, other)`, which raises `TypeError`
(`ops.insert` → `ops.shift` passes the `shift_time` keyword that
`Schedule.__init__` rejects); only the empty input returns a schedule.
The insertion time that `push_append` does compute — the `np.argmin`
slack choice — equals the claimed formula: `max` over shared channels
`c` of `accumulator.channel_stop(c) - f.channel_start(c)`, or `0` with
no shared channel. -/
theorem C2_left_align_type_error_time_formula :
    (∀ (first : Pulse.SchedComp) (rest : List Pulse.SchedComp),
      Pulse.left_align (first :: rest) = .error .typeError) ∧
    Pulse.left_align [] = .ok Pulse.emptySchedule ∧
    ∀ acc f, Pulse.push_append_insert_time acc f = Pulse.specInsertTime acc f := by
  refine ⟨?_, rfl, Pulse.push_append_time_eq_spec⟩
  intro first rest
  show Pulse.leftAlignAux (Pulse.push_append Pulse.emptySchedule first) rest = _
  have hpa : Pulse.push_append Pulse.emptySchedule first = .error .typeError := rfl
  rw [hpa]
  exact Pulse.leftAlignAux_error rest _

theorem Pulse.mem_le_maxOver : ∀ l : List Int, ∀ x ∈ l, x ≤ Pulse.maxOver l
  | [], x, hx => absurd hx (List.not_mem_nil x)
  | [y], x, hx => by
    rw [List.mem_singleton] at hx
    subst hx
    exact le_refl _
  | y :: z :: rest, x, hx => by
    rw [Pulse.maxOver_cons]
    rcases List.mem_cons.mp hx with rfl | hx'
    · exact le_max_left _ _
    · exact le_trans (Pulse.mem_le_maxOver (z :: rest) x hx') (le_max_right _ _)

theorem Pulse.maxOver_le_of_forall : ∀ l : List Int, l ≠ [] → ∀ b : Int,
    (∀ x ∈ l, x ≤ b) → Pulse.maxOver l ≤ b
  | [], h, _, _ => absurd rfl h
  | [y], _, b, hb => hb y (List.mem_singleton.mpr rfl)
  | y :: z :: rest, _, b, hb => by
    rw [Pulse.maxOver_cons]
    exact max_le (hb y (List.mem_cons_self y _))
      (Pulse.maxOver_le_of_forall (z :: rest) (by simp) b
        fun x hx => hb x (List.mem_cons_of_mem y hx))

theorem Pulse.maxOver_mem : ∀ l : List Int, l ≠ [] → Pulse.maxOver l ∈ l
  | [], h => absurd rfl h
  | [y], _ => List.mem_singleton.mpr rfl
  | y :: z :: rest, _ => by
    rw [Pulse.maxOver_cons]
    rcases max_choice y (Pulse.maxOver (z :: rest)) with h | h
    · rw [h]
      exact List.mem_cons_self y _
    · rw [h]
      exact List.mem_cons_of_mem y (Pulse.maxOver_mem (z :: rest) (by simp))

theorem Pulse.ch_stop_ts_eq_maxOver (slots : List Pulse.Timeslot) (chs : List Pulse.Channel) :
    Pulse.ch_stop_ts slots chs =
      Pulse.maxOver ((slots.filter fun t => decide (t.channel ∈ chs)).map
        fun t => t.interval.stop) := by
  simp only [Pulse.ch_stop_ts, Pulse.maxOver]

theorem Pulse.ch_stop_ts_nil (slots : List Pulse.Timeslot) :
    Pulse.ch_stop_ts slots [] = 0 := by
  rw [Pulse.ch_stop_ts_eq_maxOver]
  simp [Pulse.maxOver]

theorem Pulse.filter_singleton_ne_nil (slots : List Pulse.Timeslot) (s : Pulse.Channel)
    (hs : s ∈ Pulse.channelsOfSlots slots) :
    (slots.filter fun t => decide (t.channel ∈ [s])) ≠ [] := by
  rw [Pulse.channelsOfSlots, List.mem_dedup, List.mem_map] at hs
  obtain ⟨t, ht, rfl⟩ := hs
  intro hnil
  have : t ∈ slots.filter fun t' => decide (t'.channel ∈ [t.channel]) :=
    List.mem_filter.mpr ⟨ht, by simp⟩
  rw [hnil] at this
  exact List.not_mem_nil t this

/-- The joint per-channel-set latest stop equals the maximum of the
single-channel latest stops, provided every queried channel actually
appears in the collection. -/
theorem Pulse.ch_stop_ts_eq_max_singles (slots : List Pulse.Timeslot)
    (S : List Pulse.Channel) (hne : S ≠ [])
    (hmem : ∀ s ∈ S, s ∈ Pulse.channelsOfSlots slots) :
    Pulse.ch_stop_ts slots S = Pulse.maxOver (S.map fun s => Pulse.ch_stop_ts slots [s]) := by
  have hSne : S.map (fun s => Pulse.ch_stop_ts slots [s]) ≠ [] := by
    cases S with
    | nil => exact absurd rfl hne
    | cons x xs => simp
  apply le_antisymm
  · -- joint max ≤ max of singles: the joint max is attained by a slot whose
    -- channel lies in S
    rw [Pulse.ch_stop_ts_eq_maxOver]
    by_cases hflt : (slots.filter fun t => decide (t.channel ∈ S)) = []
    · -- impossible: S nonempty and every channel of S appears
      cases S with
      | nil => exact absurd rfl hne
      | cons s ss =>
        exfalso
        have hs := hmem s (List.mem_cons_self s ss)
        have := Pulse.filter_singleton_ne_nil slots s hs
        apply this
        rw [List.eq_nil_iff_forall_not_mem] at hflt ⊢
        intro t ht
        have h1 := List.mem_filter.mp ht
        exact hflt t (List.mem_filter.mpr ⟨h1.1, by
          simp only [decide_eq_true_eq] at h1 ⊢
          have h2 := h1.2
          rw [List.mem_singleton] at h2
          rw [h2]
          exact List.mem_cons_self s ss⟩)
    · apply Pulse.maxOver_le_of_forall _ (by simpa using hflt)
      intro x hx
      rw [List.mem_map] at hx
      obtain ⟨t, ht, rfl⟩ := hx
      have h1 := List.mem_filter.mp ht
      have hchan : t.channel ∈ S := by simpa using h1.2
      -- t.stop ≤ single-channel max for t.channel ≤ max of singles
      have hle1 : t.interval.stop ≤ Pulse.ch_stop_ts slots [t.channel] := by
        rw [Pulse.ch_stop_ts_eq_maxOver]
        apply Pulse.mem_le_maxOver
        rw [List.mem_map]
        exact ⟨t, List.mem_filter.mpr ⟨h1.1, by simp⟩, rfl⟩
      refine le_trans hle1 (Pulse.mem_le_maxOver _ _ ?_)
      rw [List.mem_map]
      exact ⟨t.channel, hchan, rfl⟩
  · -- max of singles ≤ joint max
    apply Pulse.maxOver_le_of_forall _ hSne
    intro x hx
    rw [List.mem_map] at hx
    obtain ⟨s, hsS, rfl⟩ := hx
    have hfne := Pulse.filter_singleton_ne_nil slots s (hmem s hsS)
    rw [Pulse.ch_stop_ts_eq_maxOver]
    rw [Pulse.ch_stop_ts_eq_maxOver]
    have hmax := Pulse.maxOver_mem
      ((slots.filter fun t => decide (t.channel ∈ [s])).map fun t => t.interval.stop)
      (by simpa using hfne)
    rw [List.mem_map] at hmax
    obtain ⟨t, ht, heq⟩ := hmax
    rw [← heq]
    have h1 := List.mem_filter.mp ht
    apply Pulse.mem_le_maxOver
    rw [List.mem_map]
    refine ⟨t, List.mem_filter.mpr ⟨h1.1, ?_⟩, rfl⟩
    have h2 : t.channel ∈ [s] := by simpa using h1.2
    rw [List.mem_singleton] at h2
    simp [h2]
    exact hsS

/-- The insertion time of the specification's append rule (spec section
4.2, and testable property "Append placement" in section 8), written
from the spec's words: `max` over the shared channels `s` of
`parent.channel_stop(s)`, and `0` when the fragments share no channel.
Named `spec...` because it is the spec-side of claim C3; the code-side
is `Pulse.appendInsertionTime`. -/
def Pulse.specAppendTime (p c : Pulse.SchedComp) : Int :=
  let shared := p.channels.filter fun ch => decide (ch ∈ c.channels)
  if shared.isEmpty then 0
  else Pulse.maxOver (shared.map fun s => p.ch_stop_time [s])

/-- Concrete parent for the C3 counterexample: a duration-10 leaf
occupying both channels `(0,0)` and `(0,1)`. -/
def Pulse.exParentC3 : Pulse.SchedComp :=
  .leaf 10 [⟨0, 0⟩, ⟨0, 1⟩]

/-- Concrete child for the C3 counterexample, as the constructor
`Schedule(leaf-5-on-(0,0), Schedule(leaf-3-on-(0,1), shift=5))` builds
it (direct keyword calls, see the example below): its occupancy is
`[0,5)` on channel `(0,0)` and `[5,8)` on channel `(0,1)`. -/
def Pulse.exChildC3 : Pulse.SchedComp :=
  .node [.leaf 5 [⟨0, 0⟩], .node [.leaf 3 [⟨0, 1⟩]] 5 [⟨⟨5, 8⟩, ⟨0, 1⟩⟩]] 0
    [⟨⟨0, 5⟩, ⟨0, 0⟩⟩, ⟨⟨5, 8⟩, ⟨0, 1⟩⟩]

example :
    Pulse.Schedule.mk [Pulse.SchedComp.leaf 5 [⟨0, 0⟩],
      Pulse.SchedComp.node [Pulse.SchedComp.leaf 3 [⟨0, 1⟩]] 5 [⟨⟨5, 8⟩, ⟨0, 1⟩⟩]] 0 =
      .ok Pulse.exChildC3 := rfl

example :
    Pulse.Schedule.mk [Pulse.SchedComp.leaf 3 [⟨0, 1⟩]] 5 =
      .ok (Pulse.SchedComp.node [Pulse.SchedComp.leaf 3 [⟨0, 1⟩]] 5 [⟨⟨5, 8⟩, ⟨0, 1⟩⟩]) := rfl

/-- C3 counterexample: at this concrete parent and child (the parent a
duration-10 leaf on both shared channels, the child with content on
both), `append` raises `TypeError` — its `insert` call goes through
`ops.shift`, which passes the `shift_time` keyword that
`Schedule.__init__` rejects — so it does not insert `c` at the maximum
shared-channel stop time, and `c`'s leaves start nowhere at all.  This
refutes the claim, which asserts a successful insertion with `c`'s
leaves starting at the maximum stop time. -/
theorem C3_append_type_error_counterexample :
    Pulse.append Pulse.exParentC3 Pulse.exChildC3 = .error .typeError := rfl

/-- C3 amended: `ops.append` computes
`insertion_time = parent.ch_stop_time(*shared_channels)` — equal to the
claim's `max` over the shared channels of `p`'s per-channel stop times,
and `0` when no channel is shared — but the `insert` call it then makes
always raises `TypeError` (the `shift_time` keyword of `ops.shift`), so
`c` is never inserted anywhere. -/
theorem C3_append_amended :
    (∀ p c, Pulse.append p c = .error .typeError) ∧
    ∀ p c, Pulse.appendInsertionTime p c = Pulse.specAppendTime p c := by
  refine ⟨fun p c => rfl, fun p c => ?_⟩
  simp only [Pulse.appendInsertionTime, Pulse.specAppendTime]
  by_cases hS : (p.channels.filter fun ch => decide (ch ∈ c.channels)) = []
  · rw [hS]
    simp only [List.isEmpty_nil, if_true]
    exact Pulse.ch_stop_ts_nil p.slots
  · have hSE : (p.channels.filter fun ch => decide (ch ∈ c.channels)).isEmpty = false := by
      cases hL : p.channels.filter fun ch => decide (ch ∈ c.channels) with
      | nil => exact absurd hL hS
      | cons x xs => rfl
    rw [hSE]
    simp only [Bool.false_eq_true, if_false]
    exact Pulse.ch_stop_ts_eq_max_singles p.slots _ hS
      fun s hs => (List.mem_filter.mp hs).1

/-- C4: `align_in_sequence` on three duration-10 leaves does not
produce leaves at times 0, 10, 20 — its loop body calls
`aligned.insert(aligned.duration, instruction, mutate=True)`, but the
src `Schedule.insert` accepts no `mutate` parameter, so the first
iteration raises `TypeError` (and even with the keyword dropped the
loop discards the returned schedule, leaving the accumulator empty). -/
theorem C4_align_in_sequence_type_error :
    Pulse.align_in_sequence
      [.leaf 10 [⟨0, 0⟩], .leaf 10 [⟨0, 1⟩], .leaf 10 [⟨0, 2⟩]] = .error .typeError := rfl

/-- C5: `right_align` on a 100-unit and a 20-unit leaf on independent
channels does not yield the 20-unit leaf starting at time 80 — its
internal `left_align` raises `TypeError` on the first `push_append`
(`this.insert` → `ops.insert` → `ops.shift`, whose `shift_time` keyword
`Schedule.__init__` rejects) and that error propagates out of
`right_align`.  (Had `left_align` returned, the code would next hit the
undefined `Schedule.filter` / `Schedule.instructions`, and its
`insert(..., mutate=True)` result is discarded — the claimed layout is
unreachable on several counts.) -/
theorem C5_right_align_type_error :
    Pulse.right_align [.leaf 100 [⟨0, 0⟩], .leaf 20 [⟨0, 1⟩]] = .error .typeError := rfl

/-- C6: the claim's "shift itself never fails" is false of the code —
every `ops.shift` call raises `TypeError` (the `shift_time` keyword,
ops.py:48, does not exist on `Schedule.__init__`), so
`shift(shift(f, a), b)` and `shift(f, a + b)` both fail before building
anything.  The wrap the code intends — the constructor
`Schedule(s, shift=t)` — does satisfy the claim: on any fragment with
the occupancy invariant both nestings succeed and carry identical
timeslot collections. -/
theorem C6_shift_type_error_constructor_linearity (f : Pulse.SchedComp) (a b : Int)
    (h : Pulse.noCollision f.slots) :
    Pulse.shift f a = .error .typeError ∧
    Pulse.shift f (a + b) = .error .typeError ∧
    Pulse.Schedule.mk [f] a = .ok (.node [f] a (f.slots.map (Pulse.Timeslot.shift a))) ∧
    Pulse.Schedule.mk [.node [f] a (f.slots.map (Pulse.Timeslot.shift a))] b =
      .ok (.node [.node [f] a (f.slots.map (Pulse.Timeslot.shift a))] b
        ((f.slots.map (Pulse.Timeslot.shift a)).map (Pulse.Timeslot.shift b))) ∧
    Pulse.Schedule.mk [f] (a + b) =
      .ok (.node [f] (a + b) (f.slots.map (Pulse.Timeslot.shift (a + b)))) ∧
    (Pulse.SchedComp.node [.node [f] a (f.slots.map (Pulse.Timeslot.shift a))] b
        ((f.slots.map (Pulse.Timeslot.shift a)).map (Pulse.Timeslot.shift b))).slots =
      (Pulse.SchedComp.node [f] (a + b) (f.slots.map (Pulse.Timeslot.shift (a + b)))).slots := by
  have hmid : Pulse.noCollision
      (Pulse.SchedComp.node [f] a (f.slots.map (Pulse.Timeslot.shift a))).slots := by
    show Pulse.hasCollision (f.slots.map (Pulse.Timeslot.shift a)) = false
    rw [Pulse.hasCollision_map_shift]
    exact h
  refine ⟨rfl, rfl, Pulse.mk_single_ok f a h, Pulse.mk_single_ok _ b hmid,
    Pulse.mk_single_ok f (a + b) h, ?_⟩
  show (f.slots.map (Pulse.Timeslot.shift a)).map (Pulse.Timeslot.shift b) =
    f.slots.map (Pulse.Timeslot.shift (a + b))
  rw [List.map_map]
  have hfun : Pulse.Timeslot.shift b ∘ Pulse.Timeslot.shift a =
      Pulse.Timeslot.shift (a + b) :=
    funext (Pulse.Timeslot.shift_shift a b)
  rw [hfun]

/-- Witness for C6: a duration-5 leaf, shifted by 2 then by -7 — the
`ops.shift` call raises while the constructor nesting carries the same
collection as the single constructor shift by -5. -/
theorem C6_shift_type_error_constructor_linearity_witness :
    Pulse.noCollision (Pulse.SchedComp.leaf 5 [⟨0, 0⟩]).slots ∧
    Pulse.shift (Pulse.SchedComp.leaf 5 [⟨0, 0⟩]) 2 = .error .typeError ∧
    (Pulse.SchedComp.node
        [.node [Pulse.SchedComp.leaf 5 [⟨0, 0⟩]] 2
          ((Pulse.SchedComp.leaf 5 [⟨0, 0⟩]).slots.map (Pulse.Timeslot.shift 2))] (-7)
        (((Pulse.SchedComp.leaf 5 [⟨0, 0⟩]).slots.map (Pulse.Timeslot.shift 2)).map
          (Pulse.Timeslot.shift (-7)))).slots =
      (Pulse.SchedComp.node [Pulse.SchedComp.leaf 5 [⟨0, 0⟩]] (2 + -7)
        ((Pulse.SchedComp.leaf 5 [⟨0, 0⟩]).slots.map
          (Pulse.Timeslot.shift (2 + -7)))).slots :=
  ⟨rfl,
   (C6_shift_type_error_constructor_linearity (Pulse.SchedComp.leaf 5 [⟨0, 0⟩]) 2 (-7) rfl).1,
   (C6_shift_type_error_constructor_linearity
     (Pulse.SchedComp.leaf 5 [⟨0, 0⟩]) 2 (-7) rfl).2.2.2.2.2⟩

/-- C7: left-pack idempotence is unwitnessable in this code — the only
input on which `left_align` returns a schedule at all is the empty
list (any non-empty input raises `TypeError` in its first
`push_append`, through the `shift_time` keyword of `ops.shift`), and
re-applying `left_align` to the returned schedule is a one-element
call, which again raises `TypeError`: no schedule is a fixed point of
`left_align`. -/
theorem C7_left_align_reapply_type_error (instrs : List Pulse.SchedComp)
    (s : Pulse.SchedComp) (h : Pulse.left_align instrs = .ok s) :
    Pulse.left_align [s] = .error .typeError ∧
    instrs = [] ∧ s = Pulse.emptySchedule := by
  refine ⟨?_, ?_⟩
  · show Pulse.leftAlignAux (Pulse.push_append Pulse.emptySchedule s) [] = _
    have hpa : Pulse.push_append Pulse.emptySchedule s = .error .typeError := rfl
    rw [hpa]
    exact Pulse.leftAlignAux_error [] _
  · cases instrs with
    | nil =>
      have hh : (Except.ok Pulse.emptySchedule : Except Pulse.PErr Pulse.SchedComp) =
          .ok s := h
      exact ⟨rfl, (Except.ok.inj hh).symm⟩
    | cons f rest =>
      exfalso
      have herr : Pulse.left_align (f :: rest) = .error .typeError := by
        show Pulse.leftAlignAux (Pulse.push_append Pulse.emptySchedule f) rest = _
        have hpa : Pulse.push_append Pulse.emptySchedule f = .error .typeError := rfl
        rw [hpa]
        exact Pulse.leftAlignAux_error rest _
      rw [herr] at h
      cases h

/-- Witness for C7: the empty alignment is the only success, and
re-aligning its result raises. -/
theorem C7_left_align_reapply_type_error_witness :
    Pulse.left_align [Pulse.emptySchedule] = .error .typeError ∧
    ([] : List Pulse.SchedComp) = [] ∧ Pulse.emptySchedule = Pulse.emptySchedule :=
  C7_left_align_reapply_type_error [] Pulse.emptySchedule rfl

theorem Pulse.heapMk_frame (h : Pulse.Heap) (ids : List Nat) (sh : Int) (i : Nat)
    (hi : i < h.length) :
    (Pulse.heapMk h ids sh).1[i]? = h[i]? ∧ h.length ≤ (Pulse.heapMk h ids sh).1.length := by
  rw [Pulse.heapMk]
  split
  · exact ⟨rfl, le_refl _⟩
  · refine ⟨?_, ?_⟩
    · show (h ++ [_])[i]? = h[i]?
      rw [List.getElem?_append_left hi]
    · show h.length ≤ (h ++ [_]).length
      rw [List.length_append]
      omega

/-- C8: faithful to the calls, none of the four operators ever returns
a new fragment — each raises `TypeError` with the object store returned
exactly as it was, so every input fragment (the `_children`, `_shift`
and `_timeslots` fields of every existing object) is unmodified on the
only path the code has.  The constructor `Schedule.__init__` itself —
the intended construction — only ever appends one fresh object: every
pre-existing object is unchanged at its index, on success and on the
collision-error path alike. -/
theorem C8_ops_type_error_frame (h : Pulse.Heap) (ids : List Nat) (sh : Int) (p : Nat)
    (t : Int) (c : Nat) (i : Nat) (hi : i < h.length) :
    Pulse.unionH h ids sh = (h, .error .typeError) ∧
    Pulse.shiftH h c t = (h, .error .typeError) ∧
    Pulse.insertH h p t c = (h, .error .typeError) ∧
    Pulse.appendH h p c = (h, .error .typeError) ∧
    (Pulse.heapMk h ids sh).1[i]? = h[i]? :=
  ⟨rfl, rfl, rfl, rfl, (Pulse.heapMk_frame h ids sh i hi).1⟩

/-- Witness for C8: a store with two constructed leaves, checked at the
first object. -/
theorem C8_ops_type_error_frame_witness :
    (0 : Nat) < ([⟨[], 0, [⟨⟨0, 5⟩, ⟨0, 0⟩⟩]⟩,
      ⟨[], 0, [⟨⟨0, 3⟩, ⟨0, 1⟩⟩]⟩] : Pulse.Heap).length ∧
    (Pulse.heapMk [⟨[], 0, [⟨⟨0, 5⟩, ⟨0, 0⟩⟩]⟩, ⟨[], 0, [⟨⟨0, 3⟩, ⟨0, 1⟩⟩]⟩] [0, 1] 2).1[0]? =
      ([⟨[], 0, [⟨⟨0, 5⟩, ⟨0, 0⟩⟩]⟩, ⟨[], 0, [⟨⟨0, 3⟩, ⟨0, 1⟩⟩]⟩] : Pulse.Heap)[0]? :=
  ⟨by decide,
   (C8_ops_type_error_frame [⟨[], 0, [⟨⟨0, 5⟩, ⟨0, 0⟩⟩]⟩, ⟨[], 0, [⟨⟨0, 3⟩, ⟨0, 1⟩⟩]⟩]
     [0, 1] 2 0 4 1 0 (by decide)).2.2.2.2⟩

/-- C9: the scoped phase-offset context appends no phase-shift leaves
at all — its entry call `shift_phase(phase, channel)` reaches
`_PulseBuilder.append_instruction`, whose
`self.block.append(instruction, mutate=True)` passes a `mutate` keyword
that the src `Schedule.append` (schedule.py:147) does not accept, so
`TypeError` is raised on entry, before the context body and before the
exit `shift_phase(-phase, channel)`.  The claimed `+x` / `-x` leaf pair
never exists. -/
theorem C9_phase_offset_type_error (x : ℚ) (ch : Pulse.Channel)
    (blk : List Builder.BInstr)
    (body : List Builder.BInstr → Except Pulse.PErr (List Builder.BInstr)) :
    Builder.phase_offset x ch body blk = .error .typeError ∧
    Builder.shift_phase x ch blk = .error .typeError :=
  ⟨rfl, rfl⟩

/-- C10: `Schedule.ch_duration` returns exactly
`Schedule.ch_start_time` — the minimum start time over the queried
channels — not a duration and not the latest stop time: on a schedule
whose channel `(0,0)` content spans `[3, 8)`, `ch_duration` returns
`3`, while the latest stop is `8` and the span is `5`. -/
theorem C10_ch_duration_is_ch_start_time :
    (∀ (s : Pulse.SchedComp) (chs : List Pulse.Channel),
      s.ch_duration chs = s.ch_start_time chs) ∧
    (Pulse.SchedComp.node [.leaf 5 [⟨0, 0⟩]] 3
      [⟨⟨3, 8⟩, ⟨0, 0⟩⟩]).ch_duration [⟨0, 0⟩] = 3 ∧
    (Pulse.SchedComp.node [.leaf 5 [⟨0, 0⟩]] 3
      [⟨⟨3, 8⟩, ⟨0, 0⟩⟩]).ch_stop_time [⟨0, 0⟩] = 8 ∧
    (3 : Int) ≠ 8 ∧ (3 : Int) ≠ 8 - 3 :=
  ⟨fun _ _ => rfl, rfl, rfl, by decide, by decide⟩
